import Mathlib

/-!
Verification of the NHL data pipeline (`src/source/nhl_data_pipeline.py`)
against its natural-language specification.

The Python source is shallowly embedded below.  HTML documents are
represented by their parsed structure (what BeautifulSoup yields), since
the claims are about the traversal of that structure, not about HTML
lexing: an anchor tag carries its `href` and an optional `aria-label`
attribute; a landing page optionally contains a pagination control (a
`<ul class="pagination">`) holding a list of anchor tags in document
order; a stats page optionally contains a `<table class="table">`, a list
of `<tr>` rows each carrying the stripped text of its `<th>` cells and of
its `<td>` cells, in document order.

Network effects are abstracted by passing each fetch's outcome as a value
of `Except FetchErr _`; the completion order of the concurrent fetch
tasks is an explicit schedule parameter `σ` (a list of task indices in
completion order), so that (in)dependence of the result on scheduling can
be stated.  `asyncio.gather` returns results in task order and raises the
first exception to complete; both aspects are modelled in `gather`.
-/

namespace NHL

/-- An `<a>` tag inside the pagination control: its `href` attribute and
its optional `aria-label` attribute.  On this source the `aria-label`
attribute is the explicit directional label marking the previous/next
navigation controls. -/
structure ATag where
  href : String
  ariaLabel : Option String
deriving DecidableEq

/-- The parsed landing page: the pagination control
(`soup.find("ul", class_="pagination")`), when present, with its anchor
tags in document order. -/
structure LandingSoup where
  pagination : Option (List ATag)
deriving DecidableEq

/-- Failure of one HTTP fetch (network error, timeout, or a non-success
status). -/
inductive FetchErr where
  | network
  | timeout
  | httpStatus (code : Nat)
deriving DecidableEq

/-- `get_pages_url`: the landing page is fetched and parsed; inside the
pagination control, the `href` of every `<a>` without an `aria-label`
attribute is collected in document order
(`pagination.find_all("a", attrs={"aria-label": False})`).  The whole
body sits in a `try/except` that prints and falls through, so a failed
landing fetch yields the initial empty list; a missing pagination control
likewise yields the empty list. -/
def get_pages_url (landing : Except FetchErr LandingSoup) : List String :=
  match landing with
  | Except.error _ => []
  | Except.ok soup =>
    match soup.pagination with
    | none => []
    | some links => (links.filter (fun a => a.ariaLabel.isNone)).map ATag.href

/-- One `<tr>` of the stats table: the stripped text of its `<th>` cells
and of its `<td>` cells, in document order. -/
structure TR where
  th : List String
  td : List String
deriving DecidableEq

/-- The `<table class="table">` of one stats page: its `<tr>` rows in
document order. -/
structure HTMLTable where
  trs : List TR
deriving DecidableEq

/-- `[th.text.strip() for th in table.find_all("th")]`: every header cell
of the table, in document order. -/
def tableHeaders (t : HTMLTable) : List String :=
  (t.trs.map TR.th).flatten

/-- The data rows one page contributes: for every `<tr>` after the first
(`table.find_all("tr")[1:]`), the list of its `<td>` texts, skipping rows
with no `<td>` at all (`if cells:`). -/
def pageDataRows (t : HTMLTable) : List (List String) :=
  (t.trs.drop 1).filterMap (fun tr => if tr.td.isEmpty then none else some tr.td)

/-- `get_html_table(html, rows)`: when the page has no
`<table class="table">`, `soup.find` returns `None` and the subsequent
attribute access raises, which the broad `except` turns into an implicit
`None` return.  Otherwise the page's data rows are appended to the `rows`
accumulator and `(rows, headers)` is returned. -/
def get_html_table (table : Option HTMLTable) (rows : List (List String)) :
    Option (List (List String) × List String) :=
  match table with
  | none => none
  | some t => some (rows ++ pageDataRows t, tableHeaders t)

/-- The combined dataset handed to `save_to_excel`: the header row and
the data rows. -/
structure Dataset where
  header : List String
  rows : List (List String)
deriving DecidableEq

/-- The error raised by a fetch task, if it raised one. -/
def taskError {ε α : Type} : Except ε α → Option ε
  | Except.error e => some e
  | Except.ok _ => none

/-- The value returned by a fetch task, if it returned one. -/
def taskValue {ε α : Type} : Except ε α → Option α
  | Except.error _ => none
  | Except.ok a => some a

/-- The first error among `tasks` in completion order `σ` (a list of task
indices). -/
def firstError {ε α : Type} (σ : List Nat) (tasks : List (Except ε α)) : Option ε :=
  σ.findSome? (fun i => (tasks.get? i).bind taskError)

/-- `asyncio.gather(*tasks)`: if some task raises, the first exception in
completion order propagates; otherwise the results are returned in task
order, independent of completion order. -/
def gather {ε α : Type} (σ : List Nat) (tasks : List (Except ε α)) :
    Except ε (List α) :=
  match firstError σ tasks with
  | some e => Except.error e
  | none => Except.ok (tasks.filterMap taskValue)

/-- The per-page loop of `extract`:
`rows, headers = get_html_table(html, rows)` for each fetched page in
page order.  When `get_html_table` returns `None` the tuple unpacking
raises, aborting the loop (and `extract` as a whole). -/
def pagesFold : List (Option HTMLTable) → List (List String) × List String →
    Option (List (List String) × List String)
  | [], acc => some acc
  | p :: ps, acc =>
    match get_html_table p acc.1 with
    | none => none
    | some acc₂ => pagesFold ps acc₂

/-- `extract`: discovers the page URLs, fetches them all concurrently
(`asyncio.gather`), then folds each page's table into the accumulated
rows, overwriting `headers` at every page.  Any exception — a fetch
failure propagated by `gather`, or the unpacking of `None` after a parse
failure — is caught by the outer broad `except`, so no dataset reaches
`save_to_excel`.  `fetchPage` maps a discovered URL to its fetch outcome
(the `urljoin` against the base URL is absorbed into `fetchPage`); `σ` is
the completion schedule of the concurrent tasks. -/
def extract (σ : List Nat) (landing : Except FetchErr LandingSoup)
    (fetchPage : String → Except FetchErr (Option HTMLTable)) : Option Dataset :=
  let page_urls := get_pages_url landing
  match gather σ (page_urls.map fetchPage) with
  | Except.error _ => none
  | Except.ok pages =>
    match pagesFold pages ([], []) with
    | none => none
    | some acc => some ⟨acc.2, acc.1⟩

/-- The tables of the pages whose fetch succeeded and whose markup
contains a qualifying stats table, in page order. -/
def okTables (fetchPage : String → Except FetchErr (Option HTMLTable))
    (urls : List String) : List HTMLTable :=
  urls.filterMap (fun u =>
    match fetchPage u with
    | Except.ok (some t) => some t
    | _ => none)

/-- Python's string comparison on the character lists: code-point
lexicographic, a strict prefix comparing smaller. -/
def strLtChars : List Char → List Char → Bool
  | [], [] => false
  | [], _ :: _ => true
  | _ :: _, [] => false
  | a :: as, b :: bs => if a < b then true else if b < a then false else strLtChars as bs

/-- Python's `<` on strings, as used by `max`/`min` over the stored cell
values in `transform`. -/
def pyStrLt (s t : String) : Bool :=
  strLtChars s.data t.data

/-- Python dict assignment `d[k] = v` on an insertion-ordered association
list: an existing key keeps its position and gets the new value, a new
key is appended. -/
def updateAssoc (k v : String) : List (String × String) → List (String × String)
  | [] => [(k, v)]
  | p :: rest => if p.1 = k then (k, v) :: rest else p :: updateAssoc k v rest

/-- One iteration of `transform`'s row loop:
`stats[year][team] = wins` (creating `stats[year]` first when absent). -/
def updateStats (y t w : String) :
    List (String × List (String × String)) → List (String × List (String × String))
  | [] => [(y, [(t, w)])]
  | p :: rest => if p.1 = y then (y, updateAssoc t w p.2) :: rest else p :: updateStats y t w rest

/-- `row[idx]` on a sheet row (cells modelled as strings). -/
def cell (r : List String) (i : Nat) : String :=
  r.getD i ""

/-- The `stats` dictionary `{year: {team: wins}}` built by `transform`'s
row loop, in insertion order. -/
def buildStats (yIdx tIdx wIdx : Nat) (rows : List (List String)) :
    List (String × List (String × String)) :=
  rows.foldl (fun s r => updateStats (cell r yIdx) (cell r tIdx) (cell r wIdx) s) []

/-- Python `max(teams, key=teams.get)`: the first entry whose value is
strictly greater than every later entry's value — i.e. a left fold that
replaces the current best only on a strict increase, so ties keep the
first-seen entry.  Values are compared as the stored strings. -/
def pyArgMax : List (String × String) → Option (String × String)
  | [] => none
  | e :: rest => some (rest.foldl (fun best x => if pyStrLt best.2 x.2 then x else best) e)

/-- Python `min(teams, key=teams.get)`: replaces the current best only on
a strict decrease, so ties keep the first-seen entry. -/
def pyArgMin : List (String × String) → Option (String × String)
  | [] => none
  | e :: rest => some (rest.foldl (fun best x => if pyStrLt x.2 best.2 then x else best) e)

/-- The header row of the second sheet. -/
def SHEET2_HEADER : List String :=
  ["Year", "Winner", "Winner Num. of Wins", "Loser", "Loser Num. of Wins"]

/-- The row `transform` emits for one year's teams:
`[year, winner, teams[winner], loser, teams[loser]]`. -/
def aggRow (y : String) (teams : List (String × String)) : List String :=
  let w := (pyArgMax teams).getD ("", "")
  let l := (pyArgMin teams).getD ("", "")
  [y, w.1, w.2, l.1, l.2]

/-- `transform`: reads the combined dataset back, locates the `Year`,
`Team Name` and `Wins` columns by name (`header.index` raises when a name
is absent, which the broad `except` turns into an aborted transform —
modelled as `none`), builds the `stats` dictionary, and emits the second
sheet: its header row followed by one row per year in first-seen order.
No cell is ever parsed as a number: `max`/`min` compare the stored cell
values directly. -/
def transform (ds : Dataset) : Option (List (List String)) :=
  match ds.header.findIdx? (· = "Year"), ds.header.findIdx? (· = "Team Name"),
      ds.header.findIdx? (· = "Wins") with
  | some yIdx, some tIdx, some wIdx =>
    let stats := buildStats yIdx tIdx wIdx ds.rows
    some (SHEET2_HEADER :: stats.map (fun p => aggRow p.1 p.2))
  | _, _, _ => none

/-- `stats[y][t]` as an optional lookup: `none` when the year or the team
is absent. -/
def assocFind {α : Type} (k : String) : List (String × α) → Option α
  | [] => none
  | p :: rest => if p.1 = k then some p.2 else assocFind k rest

/-- Lookup of one team's stored wins in the `stats` structure. -/
def statsLookup (stats : List (String × List (String × String))) (y t : String) :
    Option String :=
  match assocFind y stats with
  | none => none
  | some teams => assocFind t teams

/-- The spec's marking of the previous/next relative-navigation controls:
a link is marked exactly when it carries the explicit directional label
attribute (the `aria-label` attribute); its presence, not the link text,
identifies these controls. -/
def markedPrevNext (a : ATag) : Bool :=
  a.ariaLabel.isSome

/-! Concrete fixtures for counterexamples and witnesses. -/

/-- Page 1 of the three-page scenario: header row, one data row. -/
def table1 : HTMLTable := ⟨[⟨["Team", "Wins"], []⟩, ⟨[], ["Boston Bruins", "44"]⟩]⟩

/-- Page 3 of the three-page scenario: header row, one data row. -/
def table3 : HTMLTable := ⟨[⟨["Team", "Wins"], []⟩, ⟨[], ["Chicago Blackhawks", "30"]⟩]⟩

/-- A landing page whose pagination control lists three page links. -/
def landing3 : Except FetchErr LandingSoup :=
  Except.ok ⟨some [⟨"?page=1", none⟩, ⟨"?page=2", none⟩, ⟨"?page=3", none⟩]⟩

/-- A fetch outcome map where page 2's fetch fails and pages 1 and 3
succeed with parsable tables. -/
def fetch3 : String → Except FetchErr (Option HTMLTable) :=
  fun u =>
    if u = "?page=1" then Except.ok (some table1)
    else if u = "?page=3" then Except.ok (some table3)
    else Except.error FetchErr.network

/-- A page whose table header is `["A"]`. -/
def tableA : HTMLTable := ⟨[⟨["A"], []⟩, ⟨[], ["a1"]⟩]⟩

/-- A page whose table header is `["B"]`. -/
def tableB : HTMLTable := ⟨[⟨["B"], []⟩, ⟨[], ["b1"]⟩]⟩

/-- A landing page whose pagination control lists two page links. -/
def landing2 : Except FetchErr LandingSoup :=
  Except.ok ⟨some [⟨"p1", none⟩, ⟨"p2", none⟩]⟩

/-- Both pages fetch and parse, with differing headers. -/
def fetch2 : String → Except FetchErr (Option HTMLTable) :=
  fun u => if u = "p1" then Except.ok (some tableA) else Except.ok (some tableB)

/-- First page of the all-success two-page run. -/
def tableP : HTMLTable := ⟨[⟨["Team", "Wins"], []⟩, ⟨[], ["P1", "10"]⟩, ⟨[], ["P2", "20"]⟩]⟩

/-- Second page of the all-success two-page run. -/
def tableQ : HTMLTable := ⟨[⟨["Team", "Wins"], []⟩, ⟨[], ["Q1", "30"]⟩]⟩

/-- A landing page whose pagination control lists two page links. -/
def landingW : Except FetchErr LandingSoup :=
  Except.ok ⟨some [⟨"w1", none⟩, ⟨"w2", none⟩]⟩

/-- Both pages fetch and parse successfully. -/
def fetchW : String → Except FetchErr (Option HTMLTable) :=
  fun u => if u = "w1" then Except.ok (some tableP) else Except.ok (some tableQ)

/-- A dataset whose `Wins` cell is not a decimal numeral. -/
def dsUnparsable : Dataset :=
  ⟨["Year", "Team Name", "Wins"], [["1990", "Boston Bruins", "abc"]]⟩

/-- A dataset whose `Wins` cells compare differently as strings than as
numbers: `"44" < "9"` lexicographically although `9 < 44` numerically. -/
def dsLex : Dataset :=
  ⟨["Year", "Team Name", "Wins"],
    [["1994", "Ottawa Senators", "9"], ["1994", "Detroit Red Wings", "44"]]⟩

/-- A dataset where the numeric maximum (`100`) is the lexicographic
minimum of the `Wins` cells. -/
def dsC6 : Dataset :=
  ⟨["Year", "Team Name", "Wins"],
    [["1990", "TeamA", "100"], ["1990", "TeamB", "99"]]⟩

/-- Accumulator pass of the decimal reading of a digit string; any
non-digit character makes the reading fail. -/
def parseNatChars : List Char → Nat → Option Nat
  | [], acc => some acc
  | c :: cs, acc =>
    if c.isDigit then parseNatChars cs (acc * 10 + (c.toNat - 48)) else none

/-- The decimal reading of a cell string, used to state the spec's
numeric-comparison requirements; `none` on the empty string or any
non-digit character. -/
def parseNat (s : String) : Option Nat :=
  match s.data with
  | [] => none
  | cs => parseNatChars cs 0

/-! Helper lemmas. -/

/-- Keeping the rows with at least one data cell is a filter followed by
a projection. -/
theorem filterMap_keep_nonempty (l : List TR) :
    l.filterMap (fun tr => if tr.td.isEmpty then none else some tr.td) =
      (l.filter (fun tr => ! tr.td.isEmpty)).map TR.td := by
  induction l with
  | nil => rfl
  | cons a l ih =>
    rw [List.filterMap_cons, List.filter_cons]
    cases h : a.td.isEmpty
    · simpa using ih
    · simpa using ih

/-- When every task succeeded, no completion schedule observes an
error. -/
theorem firstError_of_all_ok {ε α : Type} (σ : List Nat) (tasks : List (Except ε α))
    (h : ∀ t ∈ tasks, ∃ a, t = Except.ok a) :
    firstError σ tasks = none := by
  refine List.findSome?_eq_none_iff.mpr (fun i _ => ?_)
  cases hg : tasks.get? i with
  | none => rfl
  | some tk =>
    obtain ⟨a, rfl⟩ := h tk (List.get?_mem hg)
    simp [taskError]

/-- When every page fetch yields a parsable table, the gathered results
are exactly those tables, in page order. -/
theorem filterMap_taskValue_all_ok (F : String → Except FetchErr (Option HTMLTable))
    (urls : List String) (hok : ∀ u ∈ urls, ∃ t, F u = Except.ok (some t)) :
    (urls.map F).filterMap taskValue = (okTables F urls).map some := by
  induction urls with
  | nil => rfl
  | cons u urls ih =>
    obtain ⟨t, ht⟩ := hok u (List.mem_cons_self u urls)
    have ih2 := ih (fun v hv => hok v (List.mem_cons_of_mem u hv))
    simp only [List.map_cons, List.filterMap_cons, okTables, ht, taskValue] at *
    simp [ih2]

/-- Folding a list of parsed pages accumulates every page's data rows in
page order and keeps the last page's headers. -/
theorem pagesFold_map_some (ts : List HTMLTable) (rows : List (List String))
    (hdr : List String) :
    pagesFold (ts.map some) (rows, hdr) =
      some (rows ++ (ts.map pageDataRows).flatten, (ts.map tableHeaders).getLastD hdr) := by
  induction ts generalizing rows hdr with
  | nil => simp [pagesFold]
  | cons t ts ih =>
    have h1 : pagesFold ((t :: ts).map some) (rows, hdr)
        = pagesFold (ts.map some) (rows ++ pageDataRows t, tableHeaders t) := rfl
    rw [h1, ih, List.map_cons, List.map_cons, List.flatten_cons, List.getLastD_cons,
      ← List.append_assoc]

/-- One page without a recognizable table aborts the page fold. -/
theorem pagesFold_of_none_mem (ps : List (Option HTMLTable))
    (h : none ∈ ps) (acc : List (List String) × List String) :
    pagesFold ps acc = none := by
  induction ps generalizing acc with
  | nil => cases h
  | cons p ps ih =>
    cases p with
    | none => simp [pagesFold, get_html_table]
    | some t =>
      have h2 : (none : Option HTMLTable) ∈ ps := by
        rcases List.mem_cons.mp h with h1 | h1
        · cases h1
        · exact h1
      simp [pagesFold, get_html_table, ih h2]

/-- An all-success run: the dataset holds every page's data rows in page
order under the last page's headers, independent of the completion
schedule. -/
theorem extract_all_ok (σ : List Nat) (landing : Except FetchErr LandingSoup)
    (F : String → Except FetchErr (Option HTMLTable))
    (hok : ∀ u ∈ get_pages_url landing, ∃ t, F u = Except.ok (some t)) :
    extract σ landing F =
      some ⟨((okTables F (get_pages_url landing)).map tableHeaders).getLastD [],
            ((okTables F (get_pages_url landing)).map pageDataRows).flatten⟩ := by
  have hfe : firstError σ ((get_pages_url landing).map F) = none := by
    apply firstError_of_all_ok
    intro tk htk
    obtain ⟨u, hu, rfl⟩ := List.mem_map.mp htk
    obtain ⟨t, ht⟩ := hok u hu
    exact ⟨some t, ht⟩
  have hfm := filterMap_taskValue_all_ok F (get_pages_url landing) hok
  simp [extract, gather, hfe, hfm, pagesFold_map_some]

/-- Lookup after a dict assignment: the assigned key reads the new value,
every other key is untouched. -/
theorem assocFind_updateAssoc (k v t : String) (l : List (String × String)) :
    assocFind t (updateAssoc k v l) = if k = t then some v else assocFind t l := by
  induction l with
  | nil => simp [updateAssoc, assocFind]
  | cons p rest ih =>
    by_cases h1 : p.1 = k
    · by_cases h2 : k = t
      · simp [updateAssoc, assocFind, h1, h2]
      · have h3 : ¬ p.1 = t := by rw [h1]; exact h2
        simp [updateAssoc, assocFind, h1, h2, h3]
    · by_cases h3 : p.1 = t
      · have h2 : ¬ k = t := fun hkt => h1 (by rw [h3, hkt])
        have h4 : ¬ t = k := fun htk => h2 htk.symm
        simp [updateAssoc, assocFind, h1, h2, h3, h4]
      · simp [updateAssoc, assocFind, h1, h3, ih]

/-- Lookup after one row is folded into the `stats` structure: the row's
own `(year, team)` slot reads the row's wins, every other slot is
untouched. -/
theorem statsLookup_updateStats (y t w : String)
    (s : List (String × List (String × String))) (y' t' : String) :
    statsLookup (updateStats y t w s) y' t' =
      if y = y' ∧ t = t' then some w else statsLookup s y' t' := by
  induction s with
  | nil =>
    by_cases h1 : y = y'
    · by_cases h2 : t = t' <;>
        simp [updateStats, statsLookup, assocFind, h1, h2]
    · simp [updateStats, statsLookup, assocFind, h1]
  | cons q rest ih =>
    by_cases hq : q.1 = y
    · by_cases h1 : y = y'
      · have hq2 : q.1 = y' := by rw [hq, h1]
        simp [updateStats, statsLookup, assocFind, hq, h1, hq2, assocFind_updateAssoc]
      · have hq2 : ¬ q.1 = y' := by rw [hq]; exact h1
        simp [updateStats, statsLookup, assocFind, hq, h1, hq2]
    · have hupd : updateStats y t w (q :: rest) = q :: updateStats y t w rest := by
        simp [updateStats, hq]
      by_cases hq2 : q.1 = y'
      · have h1 : ¬ y = y' := fun h => hq (by rw [hq2, ← h])
        have hL : statsLookup (q :: updateStats y t w rest) y' t' = assocFind t' q.2 := by
          simp [statsLookup, assocFind, hq2]
        have hR : statsLookup (q :: rest) y' t' = assocFind t' q.2 := by
          simp [statsLookup, assocFind, hq2]
        rw [hupd, hL, hR]
        simp [h1]
      · have hL : statsLookup (q :: updateStats y t w rest) y' t'
            = statsLookup (updateStats y t w rest) y' t' := by
          simp [statsLookup, assocFind, hq2]
        have hR : statsLookup (q :: rest) y' t' = statsLookup rest y' t' := by
          simp [statsLookup, assocFind, hq2]
        rw [hupd, hL, hR, ih]

/-- A dict assignment keeps the key sequence when the key is present and
appends the key when it is new. -/
theorem updateAssoc_keys (k v : String) (l : List (String × String)) :
    (updateAssoc k v l).map Prod.fst =
      if k ∈ l.map Prod.fst then l.map Prod.fst else l.map Prod.fst ++ [k] := by
  induction l with
  | nil => simp [updateAssoc]
  | cons p rest ih =>
    by_cases h : p.1 = k
    · simp [updateAssoc, h]
    · have h2 : ¬ k = p.1 := fun hh => h hh.symm
      by_cases h3 : k ∈ rest.map Prod.fst <;>
        simp [updateAssoc, h, h2, h3, ih]

/-- A dict assignment never duplicates a key. -/
theorem updateAssoc_keys_nodup (k v : String) (l : List (String × String))
    (h : (l.map Prod.fst).Nodup) : ((updateAssoc k v l).map Prod.fst).Nodup := by
  rw [updateAssoc_keys]
  by_cases hk : k ∈ l.map Prod.fst
  · simpa [hk] using h
  · simp [hk, List.nodup_append, h]

/-- Folding one row into `stats` keeps every group's team keys free of
duplicates. -/
theorem updateStats_nodup (y t w : String) (s : List (String × List (String × String)))
    (h : ∀ p ∈ s, (p.2.map Prod.fst).Nodup) :
    ∀ p ∈ updateStats y t w s, (p.2.map Prod.fst).Nodup := by
  induction s with
  | nil =>
    intro p hp
    simp [updateStats] at hp
    subst hp
    simp
  | cons q rest ih =>
    intro p hp
    by_cases hq : q.1 = y
    · simp [updateStats, hq] at hp
      rcases hp with rfl | hp
      · exact updateAssoc_keys_nodup t w q.2 (h q (List.mem_cons_self q rest))
      · exact h p (List.mem_cons_of_mem q hp)
    · simp only [updateStats, hq, if_false, ite_false, List.mem_cons] at hp
      rcases hp with rfl | hp
      · exact h p (List.mem_cons_self p rest)
      · exact ih (fun r hr => h r (List.mem_cons_of_mem q hr)) p hp

/-- Every group of the built `stats` structure has duplicate-free team
keys. -/
theorem buildStats_nodup (yIdx tIdx wIdx : Nat) (rows : List (List String)) :
    ∀ p ∈ buildStats yIdx tIdx wIdx rows, (p.2.map Prod.fst).Nodup := by
  suffices h : ∀ (s : List (String × List (String × String))),
      (∀ p ∈ s, (p.2.map Prod.fst).Nodup) →
      ∀ p ∈ rows.foldl
        (fun s r => updateStats (cell r yIdx) (cell r tIdx) (cell r wIdx) s) s,
        (p.2.map Prod.fst).Nodup by
    exact h [] (by simp)
  induction rows with
  | nil => intro s hs; simpa using hs
  | cons r rows ih =>
    intro s hs
    simp only [List.foldl_cons]
    exact ih _ (updateStats_nodup _ _ _ _ hs)

/-! Claim theorems. -/

/-- C1 (counterexample): in a run with three discovered pages where
page 2's fetch fails and pages 1 and 3 fetch and parse successfully,
`extract` produces no dataset at all — the claimed dataset holding pages
1 and 3's rows does not exist, because `asyncio.gather` propagates the
fetch error into the outer `except`, aborting the whole batch. -/
theorem C1_counterexample : extract [0, 1, 2] landing3 fetch3 = none := by decide

/-- C1 (amended): per-page failures are not isolated: whenever any
discovered page's fetch fails, or any fetched page has no recognizable
table, the whole `extract` aborts and produces no dataset (`σ` ranges
over all completion schedules covering every task). -/
theorem C1_theorem (σ : List Nat) (landing : Except FetchErr LandingSoup)
    (F : String → Except FetchErr (Option HTMLTable))
    (hσ : σ.Perm (List.range (get_pages_url landing).length))
    (hfail : ∃ u ∈ get_pages_url landing,
      (∃ e, F u = Except.error e) ∨ F u = Except.ok none) :
    extract σ landing F = none := by
  obtain ⟨u, hu, hcase⟩ := hfail
  cases hfe : firstError σ ((get_pages_url landing).map F) with
  | some e => simp [extract, gather, hfe]
  | none =>
    rcases hcase with ⟨e, he⟩ | hnone
    · exfalso
      obtain ⟨i, hi⟩ := List.mem_iff_get?.mp hu
      have hlt : i < (get_pages_url landing).length := (List.get?_eq_some.mp hi).1
      have hmem : i ∈ σ := hσ.mem_iff.mpr (List.mem_range.mpr hlt)
      have hnone2 := List.findSome?_eq_none_iff.mp hfe i hmem
      rw [List.get?_eq_getElem?, List.getElem?_map, ← List.get?_eq_getElem?, hi] at hnone2
      simp [he, taskError] at hnone2
    · have hpg : (none : Option HTMLTable) ∈
          (get_pages_url landing).filterMap (taskValue ∘ F) :=
        List.mem_filterMap.mpr ⟨u, hu, by simp [hnone, taskValue]⟩
      simp [extract, gather, hfe, pagesFold_of_none_mem _ hpg]

/-- C1 (witness): the amended claim at the concrete three-page run with
page 2's fetch failing. -/
theorem C1_witness : extract (List.range 3) landing3 fetch3 = none :=
  C1_theorem (List.range 3) landing3 fetch3 (List.Perm.refl _)
    ⟨"?page=2", by decide, Or.inl ⟨FetchErr.network, rfl⟩⟩

/-- C2 (counterexample): two pages both parse successfully, the first
with header `["A"]` and the second with header `["B"]`; the output
dataset's header is `["B"]`, the header of the *last* page, not `["A"]`
as the claim states, because the loop overwrites `headers` on every
page. -/
theorem C2_counterexample :
    (extract [0, 1] landing2 fetch2).map Dataset.header ≠ some ["A"] ∧
    (extract [0, 1] landing2 fetch2).map Dataset.header = some ["B"] := by decide

/-- C2 (amended): in every run in which at least one page is discovered
and every page fetches and parses successfully, the canonical header of
the output dataset is the parsed header of the last page, and the
dataset's rows are the data rows of all pages appended under that header,
in page order. -/
theorem C2_theorem (σ : List Nat) (landing : Except FetchErr LandingSoup)
    (F : String → Except FetchErr (Option HTMLTable))
    (hok : ∀ u ∈ get_pages_url landing, ∃ t, F u = Except.ok (some t))
    (hne : get_pages_url landing ≠ []) :
    (extract σ landing F).map Dataset.header =
      ((okTables F (get_pages_url landing)).map tableHeaders).getLast? ∧
    (extract σ landing F).map Dataset.rows =
      some ((okTables F (get_pages_url landing)).map pageDataRows).flatten := by
  rw [extract_all_ok σ landing F hok]
  refine ⟨?_, rfl⟩
  have hne2 : (okTables F (get_pages_url landing)).map tableHeaders ≠ [] := by
    cases hurl : get_pages_url landing with
    | nil => exact absurd hurl hne
    | cons u rest =>
      obtain ⟨t, ht⟩ := hok u (by rw [hurl]; exact List.mem_cons_self u rest)
      simp [okTables, List.filterMap_cons, ht]
  obtain ⟨a, ha⟩ := Option.isSome_iff_exists.mp (List.getLast?_isSome.mpr hne2)
  simp [List.getLastD_eq_getLast?, ha]

/-- C2 (witness): the amended claim at the concrete two-page run with
differing headers. -/
theorem C2_witness :
    (extract [0, 1] landing2 fetch2).map Dataset.header =
      ((okTables fetch2 (get_pages_url landing2)).map tableHeaders).getLast? ∧
    (extract [0, 1] landing2 fetch2).map Dataset.rows =
      some ((okTables fetch2 (get_pages_url landing2)).map pageDataRows).flatten := by
  refine C2_theorem [0, 1] landing2 fetch2 ?_ (by decide)
  intro u hu
  have hurl : get_pages_url landing2 = ["p1", "p2"] := rfl
  rw [hurl] at hu
  rcases List.mem_cons.mp hu with rfl | hu
  · exact ⟨tableA, rfl⟩
  rcases List.mem_cons.mp hu with rfl | hu
  · exact ⟨tableB, rfl⟩
  cases hu

/-- C3 (code evaluation at the failing input): the aggregation never
parses the `Wins` cells: on a dataset whose only `Wins` cell is the
unparsable string `"abc"`, `transform` succeeds and emits `"abc"` as
both winner and loser value instead of failing with a
`ValueFormatError`. -/
theorem C3_theorem :
    transform dsUnparsable =
      some [SHEET2_HEADER, ["1990", "Boston Bruins", "abc", "Boston Bruins", "abc"]] := by
  decide

/-- C4 (code evaluation at the failing input): the emitted WinnerValue is
`"9"` while the same group holds the value `"44"`; numerically `9 < 44`,
so WinnerValue is not ≥ every value of the group (and LoserValue `"44"`
is not ≤ every value): the code compares the cell strings
lexicographically instead of numerically. -/
theorem C4_theorem :
    transform dsLex =
      some [SHEET2_HEADER,
        ["1994", "Ottawa Senators", "9", "Detroit Red Wings", "44"]] ∧
    parseNat "9" = some 9 ∧ parseNat "44" = some 44 ∧ ¬ ((44 : Nat) ≤ 9) := by
  refine ⟨by decide, by decide, by decide, by decide⟩

/-- C5 (counterexample): a failed landing-page fetch is not propagated:
`get_pages_url` catches it and returns the empty sequence, and the run
continues, producing an (empty) dataset instead of aborting. -/
theorem C5_counterexample :
    get_pages_url (Except.error FetchErr.network) = [] ∧
    extract [] (Except.error FetchErr.network)
      (fun _ => Except.error FetchErr.network) = some ⟨[], []⟩ :=
  ⟨rfl, rfl⟩

/-- C5 (amended): malformed markup without a pagination control degrades
to an empty sequence, and an unreachable landing page equally degrades to
an empty sequence (the error is caught and printed, not propagated): the
run continues and `extract` produces the empty dataset. -/
theorem C5_theorem (e : FetchErr) (σ : List Nat)
    (F : String → Except FetchErr (Option HTMLTable)) :
    get_pages_url (Except.error e) = [] ∧
    get_pages_url (Except.ok ⟨none⟩) = [] ∧
    extract σ (Except.error e) F = some ⟨[], []⟩ := by
  refine ⟨rfl, rfl, ?_⟩
  have hfe : firstError σ ([] : List (Except FetchErr (Option HTMLTable))) = none :=
    firstError_of_all_ok σ _ (by intro tk htk; cases htk)
  simp [extract, get_pages_url, gather, hfe, pagesFold]

/-- C6 (code evaluation at the failing input): in a group holding the
values `100` and `99`, the emitted Winner is the entry with value `"99"`
and the Loser the entry with value `"100"` — the exact opposite of the
numeric maximum/minimum the claim requires — because `max`/`min` compare
the cell strings lexicographically. -/
theorem C6_theorem :
    transform dsC6 =
      some [SHEET2_HEADER, ["1990", "TeamB", "99", "TeamA", "100"]] ∧
    parseNat "99" = some 99 ∧ parseNat "100" = some 100 ∧ ¬ ((100 : Nat) ≤ 99) := by
  refine ⟨by decide, by decide, by decide, by decide⟩

/-- C7: for every landing page with a pagination control, discovery
returns exactly the `href`s of the links not marked as previous/next
navigation by the explicit directional label attribute, in document
order; for every landing page without a pagination control it returns
the empty sequence. -/
theorem C7_theorem :
    (∀ links : List ATag,
        get_pages_url (Except.ok ⟨some links⟩) =
          (links.filter (fun a => ! markedPrevNext a)).map ATag.href) ∧
    get_pages_url (Except.ok ⟨none⟩) = [] := by
  refine ⟨fun links => ?_, rfl⟩
  have h : ∀ a : ATag, a.ariaLabel.isNone = ! markedPrevNext a := by
    intro a; cases ha : a.ariaLabel <;> simp [markedPrevNext, ha]
  simp [get_pages_url, h]

/-- C8: in every run in which all pages fetch and parse successfully, the
output is independent of the completion order of the concurrent fetch
tasks, and the dataset's rows are exactly the concatenation of the
per-page data rows in ascending page-sequence order. -/
theorem C8_theorem (σ τ : List Nat) (landing : Except FetchErr LandingSoup)
    (F : String → Except FetchErr (Option HTMLTable))
    (hok : ∀ u ∈ get_pages_url landing, ∃ t, F u = Except.ok (some t)) :
    extract σ landing F = extract τ landing F ∧
    extract σ landing F =
      some ⟨((okTables F (get_pages_url landing)).map tableHeaders).getLastD [],
            ((okTables F (get_pages_url landing)).map pageDataRows).flatten⟩ := by
  have h1 := extract_all_ok σ landing F hok
  have h2 := extract_all_ok τ landing F hok
  exact ⟨h1.trans h2.symm, h1⟩

/-- C8 (witness): the claim at a concrete all-success two-page run, under
two different completion schedules. -/
theorem C8_witness :
    extract [1, 0] landingW fetchW = extract [0, 1] landingW fetchW ∧
    extract [1, 0] landingW fetchW =
      some ⟨((okTables fetchW (get_pages_url landingW)).map tableHeaders).getLastD [],
            ((okTables fetchW (get_pages_url landingW)).map pageDataRows).flatten⟩ := by
  refine C8_theorem [1, 0] [0, 1] landingW fetchW ?_
  intro u hu
  have hurl : get_pages_url landingW = ["w1", "w2"] := rfl
  rw [hurl] at hu
  rcases List.mem_cons.mp hu with rfl | hu
  · exact ⟨tableP, rfl⟩
  rcases List.mem_cons.mp hu with rfl | hu
  · exact ⟨tableQ, rfl⟩
  cases hu

/-- C9: entries within a group are keyed by team label: the stored wins
for a `(year, team)` pair are those of the *last* row with that pair
(earlier occurrences are overwritten), and no group ever holds two
entries with the same label. -/
theorem C9_theorem (yIdx tIdx wIdx : Nat) (rows : List (List String)) (y t : String) :
    statsLookup (buildStats yIdx tIdx wIdx rows) y t =
      ((rows.filter (fun r => cell r yIdx == y && (cell r tIdx == t))).getLast?).map
        (fun r => cell r wIdx) ∧
    ∀ p ∈ buildStats yIdx tIdx wIdx rows, (p.2.map Prod.fst).Nodup := by
  refine ⟨?_, buildStats_nodup yIdx tIdx wIdx rows⟩
  induction rows using List.reverseRecOn with
  | nil => rfl
  | append_singleton rs r ih =>
    have hstep : buildStats yIdx tIdx wIdx (rs ++ [r]) =
        updateStats (cell r yIdx) (cell r tIdx) (cell r wIdx)
          (buildStats yIdx tIdx wIdx rs) := by
      simp [buildStats, List.foldl_append]
    rw [hstep, statsLookup_updateStats, List.filter_append]
    by_cases hy : cell r yIdx = y
    · by_cases ht : cell r tIdx = t
      · simp [hy, ht, List.getLast?_concat]
      · simp [hy, ht, ih]
    · simp [hy, ih]

/-- C10: on every page containing a qualifying table and every
accumulator of rows, the returned row sequence equals the given rows
followed by this page's rows that have at least one data cell, in
document order (together with the page's parsed headers). -/
theorem C10_theorem (t : HTMLTable) (rows : List (List String)) :
    get_html_table (some t) rows =
      some (rows ++ ((t.trs.drop 1).filter (fun tr => ! tr.td.isEmpty)).map TR.td,
        tableHeaders t) := by
  show some (rows ++ pageDataRows t, tableHeaders t) = _
  unfold pageDataRows
  rw [filterMap_keep_nonempty]

end NHL
